import Mathlib

/-!
Verification of the smarter-eraser single-page application (src/src/App.tsx).

The development shallowly embeds the component state and the four operations
(handleImageUpload, clearImage, processImage, downloadResult) as pure Lean
functions.  External services (pdf.js rasterization, the generative edit API,
jsPDF assembly) are passed in as explicit collaborators, so that each claim
about the orchestration logic can be stated and settled against the code.
-/

namespace SmartEraser

/-- Display mode of the result pane (the viewMode state). -/
inductive ViewMode where
  | single
  | compare
  deriving DecidableEq

/-- The React component state of App.tsx: sourcePages, sourceMimeType,
resultPages, isProcessing, isUploading, error, userPrompt, viewMode and the
value of the hidden file input element. -/
structure AppState where
  sourcePages : List String
  sourceMimeType : Option String
  resultPages : List String
  isProcessing : Bool
  isUploading : Bool
  error : Option String
  userPrompt : String
  viewMode : ViewMode
  fileInputValue : String
  deriving DecidableEq

/-- The initial component state: all useState initial values. -/
def initState : AppState :=
  { sourcePages := [], sourceMimeType := none, resultPages := [],
    isProcessing := false, isUploading := false, error := none,
    userPrompt := "", viewMode := ViewMode.single, fileInputValue := "" }

/-- Abstraction of a decoded pdf.js document: its page count and the external
per-page rasterization pipeline (getPage, getViewport at the given scale,
canvas 2d context creation, render).  A page render yields the raw raster
content handed to canvas.toDataURL, or an error message for any throw along
the way. -/
structure PdfDoc where
  numPages : Nat
  renderPage : Nat → Float → Except String String

/-- The fixed magnification factor passed to page.getViewport in App.tsx. -/
def pdfRenderScale : Float := 2.0

/-- canvas.toDataURL: serializes raster content as a data URL of the given
MIME type. -/
def canvasToDataURL (mime content : String) : String :=
  "data:" ++ mime ++ ";base64," ++ content

/-- An uploaded file: its size and MIME type, the data URL produced by
FileReader.readAsDataURL, and the result of pdfjsLib.getDocument on its
bytes (only consulted on the PDF branch). -/
structure UploadFile where
  size : Nat
  type : String
  dataUrl : String
  decoded : Except String PdfDoc

/-- The upload size limit checked in handleImageUpload: 100MB. -/
def maxUploadSize : Nat := 100 * 1024 * 1024

/-- The error message set when the upload exceeds the size limit. -/
def sizeLimitMsg : String := "文件大小不能超过 100MB"

/-- The error message surfaced when reading a PDF throws: the fixed prefix
plus the error's own message, with the generic fallback for an empty
message (JavaScript falsiness of the empty string). -/
def pdfErrorMsg (m : String) : String :=
  "读取 PDF 文件时发生错误: " ++ (if m = "" then "未知错误" else m)

/-- Whether an external call succeeded. -/
def exIsOk : Except String String → Bool
  | Except.ok _ => true
  | Except.error _ => false

/-- Content of a successful external call, with a default for the error case. -/
def exOkD : Except String String → String
  | Except.ok c => c
  | Except.error _ => ""

/-- The rasterization loop of handleImageUpload: pages are rendered in the
given order at pdfRenderScale and exported as PNG data URLs; the first
throw aborts the whole loop. -/
def rasterizePages (doc : PdfDoc) : List Nat → Except String (List String)
  | [] => Except.ok []
  | i :: rest =>
    match doc.renderPage i pdfRenderScale with
    | Except.error e => Except.error e
    | Except.ok c =>
      match rasterizePages doc rest with
      | Except.error e => Except.error e
      | Except.ok cs => Except.ok (canvasToDataURL "image/png" c :: cs)

/-- The page numbers 1..n iterated by the PDF loop. -/
def pageNumbers (n : Nat) : List Nat := (List.range n).map (fun k => k + 1)

/-- handleImageUpload.  A missing file returns immediately.  A file above the
size limit only sets the error.  Otherwise prior error/result/source state is
reset, then the PDF branch decodes and rasterizes every page (any throw is
caught and surfaced via pdfErrorMsg), and the image branch stores the file's
own data URL and MIME type.  Completion paths clear the file input value. -/
def handleImageUpload (st : AppState) (file : Option UploadFile) : AppState :=
  match file with
  | none => st
  | some f =>
    if maxUploadSize < f.size then { st with error := some sizeLimitMsg }
    else
      let st1 := { st with isUploading := true, error := none,
                           resultPages := [], sourcePages := [] }
      if f.type = "application/pdf" then
        match f.decoded with
        | Except.error m =>
          { st1 with error := some (pdfErrorMsg m), isUploading := false,
                     fileInputValue := "" }
        | Except.ok doc =>
          match rasterizePages doc (pageNumbers doc.numPages) with
          | Except.error m =>
            { st1 with error := some (pdfErrorMsg m), isUploading := false,
                       fileInputValue := "" }
          | Except.ok pages =>
            { st1 with sourcePages := pages,
                       sourceMimeType := some "image/png",
                       isUploading := false, fileInputValue := "" }
      else
        { st1 with sourcePages := [f.dataUrl], sourceMimeType := some f.type,
                   isUploading := false, fileInputValue := "" }

/-- clearImage: resets source pages, source MIME type, result pages, error
and the file input value. -/
def clearImage (st : AppState) : AppState :=
  { st with sourcePages := [], sourceMimeType := none, resultPages := [],
            error := none, fileInputValue := "" }

/-- The inlineData of a response part: image bytes plus an optional MIME
type. -/
structure InlineData where
  data : String
  mimeType : Option String
  deriving DecidableEq

/-- One part of an edit-service response: inline image data or text. -/
structure ResponsePart where
  inlineData : Option InlineData
  text : Option String
  deriving DecidableEq

/-- The content of a response candidate: an optional list of parts. -/
structure ResponseContent where
  parts : Option (List ResponsePart)
  deriving DecidableEq

/-- One candidate of an edit-service response. -/
structure Candidate where
  content : Option ResponseContent
  deriving DecidableEq

/-- An edit-service response: an optional candidate list. -/
structure EditResponse where
  candidates : Option (List Candidate)
  deriving DecidableEq

/-- The request sent by processImage for one page: the base64 payload of the
page data URL, the shared MIME type, the wrapped instruction and the fixed
system role text. -/
structure EditRequest where
  data : String
  mimeType : String
  instruction : String
  systemText : String
  deriving DecidableEq

/-- The fixed systemInstruction of the generateContent call. -/
def systemInstructionText : String :=
  "You are a professional document and image restoration expert. Your specialty is removing handwriting, marks, and annotations from scanned documents and photos while perfectly preserving the original printed text and background structure. You always output the modified image directly."

/-- Drops leading whitespace characters. -/
def dropLeadWs : List Char → List Char
  | [] => []
  | a :: as => if a.isWhitespace then dropLeadWs as else a :: as

/-- JavaScript String.prototype.trim: removes whitespace from both ends. -/
def jsTrim (s : String) : String :=
  String.mk (List.reverse (dropLeadWs (List.reverse (dropLeadWs s.data))))

/-- The fixed instruction template wrapping the trimmed user prompt. -/
def instructionTemplate (prompt : String) : String :=
  "TASK: Image Editing.\nINSTRUCTION: " ++ jsTrim prompt ++
    "\nREQUIREMENT: Output ONLY the edited image. Do not add any new elements not requested. Maintain the original resolution and style."

/-- JavaScript String.prototype.split on a single separator character. -/
def splitOnChar (c : Char) : List Char → List (List Char)
  | [] => [[]]
  | a :: as =>
    if a = c then [] :: splitOnChar c as
    else
      match splitOnChar c as with
      | [] => [[a]]
      | g :: gs => (a :: g) :: gs

/-- sourcePages[i].split(',')[1]: the base64 payload of a data URL (empty
when the data URL has no comma). -/
def base64Payload (s : String) : String :=
  match List.drop 1 (splitOnChar ',' s.data) with
  | [] => ""
  | g :: _ => String.mk g

/-- The request built by processImage for one source page. -/
def mkRequest (mime prompt page : String) : EditRequest :=
  { data := base64Payload page, mimeType := mime,
    instruction := instructionTemplate prompt,
    systemText := systemInstructionText }

/-- part.inlineData.mimeType || 'image/png': a missing or empty MIME type
defaults to image/png. -/
def mimeOrPng : Option String → String
  | none => "image/png"
  | some m => if m = "" then "image/png" else m

/-- The data URL stored for a returned inline image. -/
def mkImageUrl (d : InlineData) : String :=
  "data:" ++ mimeOrPng d.mimeType ++ ";base64," ++ d.data

/-- response.candidates && response.candidates[0]?.content?.parts: the part
list actually iterated, when every link of the optional chain is present. -/
def responseParts (r : EditResponse) : Option (List ResponsePart) :=
  match r.candidates with
  | none => none
  | some [] => none
  | some (c :: _) =>
    match c.content with
    | none => none
    | some ct => ct.parts

/-- The part-scanning loop of processImage: the first part with inlineData
yields the stored image URL and iteration stops; text parts accumulate into
the diagnostic text. -/
def scanParts : List ResponsePart → String → Option String × String
  | [], acc => (none, acc)
  | p :: ps, acc =>
    match p.inlineData with
    | some d => (some (mkImageUrl d), acc)
    | none =>
      match p.text with
      | some t => scanParts ps (acc ++ t)
      | none => scanParts ps acc

/-- Interpretation of one edit-service response: the found image URL (if
any) and the accumulated text response. -/
def handleResponse (r : EditResponse) : Option String × String :=
  match responseParts r with
  | none => (none, "")
  | some parts => scanParts parts ""

/-- The error thrown when page idx (0-based) yields no image: embeds the
1-based page number and the accumulated text (or the fallback when the text
is empty). -/
def pageErrorMsg (idx : Nat) (txt : String) : String :=
  "第 " ++ toString (idx + 1) ++ " 页未能生成图像。AI回复: " ++
    (if txt = "" then "无" else txt)

/-- Outcome of the sequential page loop of processImage: the accumulated
result pages, the error (none on success), and the requests issued. -/
structure RunOutcome where
  results : List String
  error : Option String
  requested : List EditRequest

/-- The sequential for-loop of processImage over the source pages, starting
at 0-based index idx: each page issues one request; a page with an image
part appends to the results, the first page without one aborts with the
page error. -/
def runEditAux (service : EditRequest → EditResponse) (mime prompt : String) :
    Nat → List String → RunOutcome
  | _, [] => { results := [], error := none, requested := [] }
  | idx, page :: rest =>
    match handleResponse (service (mkRequest mime prompt page)) with
    | (some url, _) =>
      { results := url :: (runEditAux service mime prompt (idx + 1) rest).results,
        error := (runEditAux service mime prompt (idx + 1) rest).error,
        requested :=
          mkRequest mime prompt page ::
            (runEditAux service mime prompt (idx + 1) rest).requested }
    | (none, txt) =>
      { results := [], error := some (pageErrorMsg idx txt),
        requested := [mkRequest mime prompt page] }

/-- !sourceMimeType: a missing MIME type, and also the empty string, is
falsy in JavaScript. -/
def mimeFalsy : Option String → Bool
  | none => true
  | some m => m == ""

/-- processImage: returns unchanged when no source pages are loaded or the
MIME type is falsy; otherwise resets error/results, runs the sequential
loop, and stores its results and error.  The second component lists the
requests issued to the edit service. -/
def processImage (service : EditRequest → EditResponse) (st : AppState) :
    AppState × List EditRequest :=
  if st.sourcePages.isEmpty || mimeFalsy st.sourceMimeType then (st, [])
  else
    ({ st with isProcessing := false,
               error := (runEditAux service (st.sourceMimeType.getD "")
                 st.userPrompt 0 st.sourcePages).error,
               resultPages := (runEditAux service (st.sourceMimeType.getD "")
                 st.userPrompt 0 st.sourcePages).results },
     (runEditAux service (st.sourceMimeType.getD "")
       st.userPrompt 0 st.sourcePages).requested)

/-- Intrinsic dimensions of an image as reported by pdf.getImageProperties,
modelled over the rationals. -/
structure ImgDims where
  width : ℚ
  height : ℚ
  deriving DecidableEq

/-- jsPDF A4 portrait page width in millimeters. -/
def a4Width : ℚ := 210

/-- jsPDF A4 portrait page height in millimeters. -/
def a4Height : ℚ := 297

/-- One pdf.addImage call: the image data, format and placement rectangle. -/
structure PlacedImage where
  data : String
  fmt : String
  x : ℚ
  y : ℚ
  w : ℚ
  h : ℚ
  deriving DecidableEq

/-- What downloadResult saves: a single PNG file, or an assembled PDF. -/
inductive DownloadOut where
  | pngFile (filename : String) (data : String)
  | pdfFile (filename : String) (pages : List PlacedImage)
  deriving DecidableEq

/-- The per-page placement computation of downloadResult: compare the image
ratio with the page ratio, scale to full width (wider) or full height
(otherwise), and center both axes. -/
def placePage (dims : String → ImgDims) (pageData : String) : PlacedImage :=
  { data := pageData, fmt := "PNG",
    x := (a4Width -
      (if a4Width / a4Height < (dims pageData).width / (dims pageData).height
       then a4Width
       else a4Height * ((dims pageData).width / (dims pageData).height))) / 2,
    y := (a4Height -
      (if a4Width / a4Height < (dims pageData).width / (dims pageData).height
       then a4Width / ((dims pageData).width / (dims pageData).height)
       else a4Height)) / 2,
    w := if a4Width / a4Height < (dims pageData).width / (dims pageData).height
         then a4Width
         else a4Height * ((dims pageData).width / (dims pageData).height),
    h := if a4Width / a4Height < (dims pageData).width / (dims pageData).height
         then a4Width / ((dims pageData).width / (dims pageData).height)
         else a4Height }

/-- downloadResult: nothing for an empty result set, a fixed-name PNG for a
single result page, and an A4 portrait PDF with one placed image per result
page otherwise.  The dims collaborator stands for pdf.getImageProperties. -/
def downloadResult (dims : String → ImgDims) (st : AppState) :
    Option DownloadOut :=
  match st.resultPages with
  | [] => none
  | [p] => some (DownloadOut.pngFile "cleaned_worksheet.png" p)
  | ps => some (DownloadOut.pdfFile "cleaned_document.pdf"
      (ps.map (placePage dims)))

/-- Whether the needle character list starts the target list. -/
def charsLead : List Char → List Char → Bool
  | [], _ => true
  | _ :: _, [] => false
  | a :: as, b :: bs => a == b && charsLead as bs

/-- Whether the needle occurs contiguously anywhere in the haystack. -/
def charsHaveRun (needle : List Char) : List Char → Bool
  | [] => charsLead needle []
  | b :: bs => charsLead needle (b :: bs) || charsHaveRun needle bs

/-- Substring occurrence on strings. -/
def strHasSub (needle hay : String) : Bool :=
  charsHaveRun needle.data hay.data

/-! ### Unfolding and structural lemmas for the page loop -/

theorem runEditAux_nil (service : EditRequest → EditResponse)
    (mime prompt : String) (idx : Nat) :
    runEditAux service mime prompt idx [] =
      { results := [], error := none, requested := [] } := rfl

theorem runEditAux_cons_ok (service : EditRequest → EditResponse)
    (mime prompt : String) (idx : Nat) (page : String) (rest : List String)
    (u t : String)
    (h : handleResponse (service (mkRequest mime prompt page)) = (some u, t)) :
    runEditAux service mime prompt idx (page :: rest) =
      { results :=
          u :: (runEditAux service mime prompt (idx + 1) rest).results,
        error := (runEditAux service mime prompt (idx + 1) rest).error,
        requested :=
          mkRequest mime prompt page ::
            (runEditAux service mime prompt (idx + 1) rest).requested } := by
  simp [runEditAux, h]

theorem runEditAux_cons_fail (service : EditRequest → EditResponse)
    (mime prompt : String) (idx : Nat) (page : String) (rest : List String)
    (t : String)
    (h : handleResponse (service (mkRequest mime prompt page)) = (none, t)) :
    runEditAux service mime prompt idx (page :: rest) =
      { results := [], error := some (pageErrorMsg idx t),
        requested := [mkRequest mime prompt page] } := by
  simp [runEditAux, h]

theorem runEditAux_length_le (service : EditRequest → EditResponse)
    (mime prompt : String) :
    ∀ (pages : List String) (idx : Nat),
      (runEditAux service mime prompt idx pages).results.length ≤
        pages.length := by
  intro pages
  induction pages with
  | nil => intro idx; simp [runEditAux_nil]
  | cons page rest ih =>
    intro idx
    rcases h : handleResponse (service (mkRequest mime prompt page)) with ⟨o, t⟩
    cases o with
    | some u =>
      rw [runEditAux_cons_ok service mime prompt idx page rest u t h]
      simpa using ih (idx + 1)
    | none =>
      rw [runEditAux_cons_fail service mime prompt idx page rest t h]
      simp

theorem runEditAux_error_iff (service : EditRequest → EditResponse)
    (mime prompt : String) :
    ∀ (pages : List String) (idx : Nat),
      ((runEditAux service mime prompt idx pages).error = none ↔
        (runEditAux service mime prompt idx pages).results.length =
          pages.length) := by
  intro pages
  induction pages with
  | nil => intro idx; simp [runEditAux_nil]
  | cons page rest ih =>
    intro idx
    rcases h : handleResponse (service (mkRequest mime prompt page)) with ⟨o, t⟩
    cases o with
    | some u =>
      rw [runEditAux_cons_ok service mime prompt idx page rest u t h]
      simpa using ih (idx + 1)
    | none =>
      rw [runEditAux_cons_fail service mime prompt idx page rest t h]
      simp

theorem runEditAux_all_ok (service : EditRequest → EditResponse)
    (mime prompt : String) :
    ∀ (pages : List String) (idx : Nat),
      (∀ p ∈ pages,
        ((handleResponse (service (mkRequest mime prompt p))).1).isSome =
          true) →
      (runEditAux service mime prompt idx pages).error = none ∧
      (runEditAux service mime prompt idx pages).results =
        pages.map (fun p =>
          ((handleResponse (service (mkRequest mime prompt p))).1).getD "") := by
  intro pages
  induction pages with
  | nil => intro idx _; simp [runEditAux_nil]
  | cons page rest ih =>
    intro idx hall
    have hhead := hall page (List.mem_cons_self page rest)
    obtain ⟨u, hu⟩ := Option.isSome_iff_exists.mp hhead
    have hpair : handleResponse (service (mkRequest mime prompt page)) =
        (some u, (handleResponse (service (mkRequest mime prompt page))).2) := by
      rw [← hu]
    have ihr := ih (idx + 1) (fun p hp => hall p (List.mem_cons_of_mem _ hp))
    rw [runEditAux_cons_ok service mime prompt idx page rest u _ hpair]
    refine ⟨ihr.1, ?_⟩
    simp [ihr.2, hu]

theorem runEditAux_fail (service : EditRequest → EditResponse)
    (mime prompt : String) :
    ∀ (pages : List String) (idx k : Nat), k < pages.length →
    (∀ i, i < k →
      ((handleResponse (service (mkRequest mime prompt
        (pages.getD i "")))).1).isSome = true) →
    ((handleResponse (service (mkRequest mime prompt
      (pages.getD k "")))).1 = none) →
    (runEditAux service mime prompt idx pages).results.length = k ∧
    (runEditAux service mime prompt idx pages).error =
      some (pageErrorMsg (idx + k)
        ((handleResponse (service (mkRequest mime prompt
          (pages.getD k "")))).2)) ∧
    (runEditAux service mime prompt idx pages).requested =
      (pages.take (k + 1)).map (mkRequest mime prompt) ∧
    ∀ i, i < k →
      (runEditAux service mime prompt idx pages).results[i]? =
        (handleResponse (service (mkRequest mime prompt
          (pages.getD i "")))).1 := by
  intro pages
  induction pages with
  | nil => intro idx k hk; simp at hk
  | cons page rest ih =>
    intro idx k hk hsucc hfail
    cases k with
    | zero =>
      have hget0 : (page :: rest).getD 0 "" = page := rfl
      rw [hget0] at hfail
      have hpair : handleResponse (service (mkRequest mime prompt page)) =
          (none, (handleResponse (service (mkRequest mime prompt page))).2) := by
        rw [← hfail]
      rw [runEditAux_cons_fail service mime prompt idx page rest _ hpair]
      refine ⟨rfl, ?_, ?_, ?_⟩
      · simp [List.getD]
      · simp
      · intro i hi; omega
    | succ k0 =>
      have hhead := hsucc 0 (by omega)
      have hget0 : (page :: rest).getD 0 "" = page := rfl
      rw [hget0] at hhead
      obtain ⟨u, hu⟩ := Option.isSome_iff_exists.mp hhead
      have hpair : handleResponse (service (mkRequest mime prompt page)) =
          (some u, (handleResponse (service (mkRequest mime prompt page))).2) := by
        rw [← hu]
      rw [runEditAux_cons_ok service mime prompt idx page rest u _ hpair]
      have hshift : ∀ i : Nat, (page :: rest).getD (i + 1) "" = rest.getD i "" := by
        intro i; rfl
      have hk0 : k0 < rest.length := by simp at hk; omega
      have hsucc0 : ∀ i, i < k0 →
          ((handleResponse (service (mkRequest mime prompt
            (rest.getD i "")))).1).isSome = true := by
        intro i hi
        have := hsucc (i + 1) (by omega)
        rwa [hshift i] at this
      have hfail0 : (handleResponse (service (mkRequest mime prompt
          (rest.getD k0 "")))).1 = none := by
        have := hfail
        rwa [hshift k0] at this
      obtain ⟨ihl, ihe, ihr, ihi⟩ := ih (idx + 1) k0 hk0 hsucc0 hfail0
      refine ⟨?_, ?_, ?_, ?_⟩
      · simp [ihl]
      · rw [ihe, hshift k0]
        have : idx + 1 + k0 = idx + (k0 + 1) := by omega
        rw [this]
      · rw [ihr]
        simp [List.take_succ_cons]
      · intro i hi
        cases i with
        | zero =>
          rw [hget0, hu]
          simp
        | succ i0 =>
          have := ihi i0 (by omega)
          rw [hshift i0]
          simpa using this

theorem processImage_run (service : EditRequest → EditResponse)
    (st : AppState) (m : String)
    (hm : st.sourceMimeType = some m) (hm0 : m ≠ "")
    (hne : st.sourcePages ≠ []) :
    processImage service st =
      ({ st with isProcessing := false,
                 error :=
                   (runEditAux service m st.userPrompt 0 st.sourcePages).error,
                 resultPages :=
                   (runEditAux service m st.userPrompt 0 st.sourcePages).results },
       (runEditAux service m st.userPrompt 0 st.sourcePages).requested) := by
  have hempty : st.sourcePages.isEmpty = false := by
    cases hsp : st.sourcePages with
    | nil => exact absurd hsp hne
    | cons a l => simp
  have hfalsy : mimeFalsy st.sourceMimeType = false := by
    rw [hm]; simp [mimeFalsy, hm0]
  have hguard : (st.sourcePages.isEmpty || mimeFalsy st.sourceMimeType) = false := by
    rw [hempty, hfalsy]; rfl
  have hmd : st.sourceMimeType.getD "" = m := by rw [hm]; rfl
  simp only [processImage, hguard, hmd, Bool.false_eq_true, if_false]

/-! ### Claim theorems -/

/-- C9: invoking clear sets the source sequence to empty, the source MIME
type to null, the result sequence to empty, and the error to null, for every
prior state. -/
theorem c9_theorem (st : AppState) :
    (clearImage st).sourcePages = [] ∧
    (clearImage st).sourceMimeType = none ∧
    (clearImage st).resultPages = [] ∧
    (clearImage st).error = none :=
  ⟨rfl, rfl, rfl, rfl⟩

/-- C5: uploading a file above 100MB only sets the size-limit error; the
source and result sequences and every other field are left unchanged, and
the outcome does not depend on the file's content (no file read, no
rasterization). -/
theorem c5_theorem (st : AppState) (f : UploadFile)
    (hbig : maxUploadSize < f.size) :
    handleImageUpload st (some f) = { st with error := some sizeLimitMsg } ∧
    ∀ g : UploadFile, g.size = f.size →
      handleImageUpload st (some g) = { st with error := some sizeLimitMsg } := by
  constructor
  · simp [handleImageUpload, hbig]
  · intro g hg
    have : maxUploadSize < g.size := by rw [hg]; exact hbig
    simp [handleImageUpload, this]

/-- A file above the size limit with arbitrary content. -/
def bigFile : UploadFile :=
  { size := 104857601, type := "image/png", dataUrl := "data:image/png;base64,AAAA",
    decoded := Except.error "not a pdf" }

/-- C5 witness: the size-limit theorem applied to a concrete 100MB+1 byte
file in the initial state. -/
theorem c5_witness :
    handleImageUpload initState (some bigFile) =
      { initState with error := some sizeLimitMsg } :=
  (c5_theorem initState bigFile (by decide)).1

/-- C1 (amended): for a document of K ≥ 1 source pages whose shared MIME
type is present and non-empty, if the edit service returns an inline-image
part for every page request, the run yields exactly K result pages, no
error, and the result page at every index i is the image extracted from the
response to the request built from the source page at i. -/
theorem c1_theorem (service : EditRequest → EditResponse) (st : AppState)
    (m : String) (K : Nat)
    (hm : st.sourceMimeType = some m) (hm0 : m ≠ "")
    (hK : st.sourcePages.length = K) (hK0 : 0 < K)
    (hall : ∀ p ∈ st.sourcePages,
      ((handleResponse (service (mkRequest m st.userPrompt p))).1).isSome =
        true) :
    (processImage service st).1.resultPages.length = K ∧
    (processImage service st).1.error = none ∧
    ∀ i, i < K → ∃ u,
      (processImage service st).1.resultPages[i]? = some u ∧
      (handleResponse (service (mkRequest m st.userPrompt
        (st.sourcePages.getD i "")))).1 = some u := by
  have hne : st.sourcePages.isEmpty = false := by
    cases hsp : st.sourcePages with
    | nil => rw [hsp] at hK; simp at hK; omega
    | cons a l => simp
  have hfalsy : mimeFalsy st.sourceMimeType = false := by
    rw [hm]; simp [mimeFalsy, hm0]
  have hguard : (st.sourcePages.isEmpty || mimeFalsy st.sourceMimeType) = false := by
    rw [hne, hfalsy]; rfl
  have hmd : st.sourceMimeType.getD "" = m := by rw [hm]; rfl
  have hrun := runEditAux_all_ok service m st.userPrompt st.sourcePages 0 hall
  have hproc : (processImage service st).1 =
      { st with isProcessing := false,
                error := (runEditAux service m st.userPrompt 0 st.sourcePages).error,
                resultPages :=
                  (runEditAux service m st.userPrompt 0 st.sourcePages).results } := by
    simp only [processImage, hguard, hmd, Bool.false_eq_true, if_false]
  refine ⟨?_, ?_, ?_⟩
  · rw [hproc]; simp [hrun.2, hK]
  · rw [hproc]; simpa using hrun.1
  · intro i hi
    refine ⟨((handleResponse (service (mkRequest m st.userPrompt
        (st.sourcePages.getD i "")))).1).getD "", ?_, ?_⟩
    · rw [hproc]
      simp only [hrun.2]
      have hilt : i < st.sourcePages.length := by omega
      rw [List.getElem?_map]
      rw [List.getElem?_eq_getElem hilt]
      simp [List.getD, List.getElem?_eq_getElem hilt]
    · have hilt : i < st.sourcePages.length := by omega
      have hmem : st.sourcePages.getD i "" ∈ st.sourcePages := by
        rw [List.getD_eq_getElem?_getD, List.getElem?_eq_getElem hilt]
        exact List.getElem_mem hilt
      have := hall _ hmem
      obtain ⟨u, hu⟩ := Option.isSome_iff_exists.mp this
      rw [hu]; simp

/-- A response wrapping the given parts in a single candidate. -/
def mkResponse (ps : List ResponsePart) : EditResponse :=
  { candidates := some [{ content := some { parts := some ps } }] }

/-- A part carrying inline image bytes with an explicit PNG MIME type. -/
def imagePart : ResponsePart :=
  { inlineData := some { data := "EDITED", mimeType := some "image/png" },
    text := none }

/-- A response whose single candidate carries one inline-image part. -/
def alwaysImageResponse : EditResponse := mkResponse [imagePart]

/-- A single-page document whose shared MIME type is the empty string (the
MIME type a browser reports for a file of unknown type). -/
def c1BadState : AppState :=
  { initState with sourcePages := ["data:image/png;base64,AAAA"],
                   sourceMimeType := some "", userPrompt := "clean" }

/-- C1 counterexample: a 1-page document with a non-null (but empty) source
MIME type, an edit service that returns an inline-image part for every
request, and yet the run returns no result page at all: the code treats the
empty-string MIME type as missing and refuses to run. -/
theorem c1_counterexample :
    c1BadState.sourcePages.length = 1 ∧
    c1BadState.sourceMimeType ≠ none ∧
    (∀ p ∈ c1BadState.sourcePages,
      ((handleResponse ((fun _ => alwaysImageResponse)
        (mkRequest "" c1BadState.userPrompt p))).1).isSome = true) ∧
    (processImage (fun _ => alwaysImageResponse) c1BadState).1.resultPages.length
      = 0 := by
  decide

/-- A ready two-page document with a sound MIME type. -/
def goodState : AppState :=
  { initState with
      sourcePages := ["data:image/png;base64,AAAA", "data:image/png;base64,BBBB"],
      sourceMimeType := some "image/png", userPrompt := "clean" }

/-- C1 witness: the amended theorem applied to the concrete two-page
document with a service that always returns an image. -/
theorem c1_witness :
    (processImage (fun _ => alwaysImageResponse) goodState).1.resultPages.length
      = 2 ∧
    (processImage (fun _ => alwaysImageResponse) goodState).1.error = none :=
  ⟨(c1_theorem (fun _ => alwaysImageResponse) goodState "image/png" 2 rfl
      (by decide) rfl (by decide) (by decide)).1,
   (c1_theorem (fun _ => alwaysImageResponse) goodState "image/png" 2 rfl
      (by decide) rfl (by decide) (by decide)).2.1⟩

/-- C2: if page j (1-indexed) is the first page whose response contains no
inline-image part, the run leaves exactly the j-1 already-completed result
pages, sets an error embedding the page number j, and issues requests for
pages 1..j only (none after j). -/
theorem c2_theorem (service : EditRequest → EditResponse) (st : AppState)
    (m : String) (j : Nat)
    (hm : st.sourceMimeType = some m) (hm0 : m ≠ "")
    (hj1 : 1 ≤ j) (hjK : j ≤ st.sourcePages.length)
    (hsucc : ∀ i, i < j - 1 →
      ((handleResponse (service (mkRequest m st.userPrompt
        (st.sourcePages.getD i "")))).1).isSome = true)
    (hfail : (handleResponse (service (mkRequest m st.userPrompt
      (st.sourcePages.getD (j - 1) "")))).1 = none) :
    (processImage service st).1.resultPages.length = j - 1 ∧
    (∃ t, (processImage service st).1.error =
      some ("第 " ++ toString j ++ " 页未能生成图像。AI回复: " ++ t)) ∧
    (processImage service st).2 =
      (st.sourcePages.take j).map (mkRequest m st.userPrompt) ∧
    ∀ i, i < j - 1 → ∃ u,
      (processImage service st).1.resultPages[i]? = some u ∧
      (handleResponse (service (mkRequest m st.userPrompt
        (st.sourcePages.getD i "")))).1 = some u := by
  have hne : st.sourcePages ≠ [] := by
    intro h
    rw [h] at hjK
    simp at hjK
    omega
  have hproc := processImage_run service st m hm hm0 hne
  have hklt : j - 1 < st.sourcePages.length := by omega
  obtain ⟨hl, he, hr, hi⟩ := runEditAux_fail service m st.userPrompt
    st.sourcePages 0 (j - 1) hklt hsucc hfail
  refine ⟨?_, ?_, ?_, ?_⟩
  · rw [hproc]; exact hl
  · rw [hproc]
    refine ⟨(if (handleResponse (service (mkRequest m st.userPrompt
      (st.sourcePages.getD (j - 1) "")))).2 = "" then "无"
      else (handleResponse (service (mkRequest m st.userPrompt
        (st.sourcePages.getD (j - 1) "")))).2), ?_⟩
    simp only [he, pageErrorMsg]
    have : 0 + (j - 1) + 1 = j := by omega
    rw [this]
  · rw [hproc]
    simp only [hr]
    have : j - 1 + 1 = j := by omega
    rw [this]
  · intro i hilt
    have hisome := hsucc i hilt
    obtain ⟨u, hu⟩ := Option.isSome_iff_exists.mp hisome
    refine ⟨u, ?_, hu⟩
    rw [hproc]
    simp only [hi i hilt, hu]

/-- A part carrying only a textual refusal. -/
def refusalPart : ResponsePart :=
  { inlineData := none, text := some "cannot do that" }

/-- A response whose single candidate carries only a text part. -/
def refusalResponse : EditResponse := mkResponse [refusalPart]

/-- A service that edits the first page of goodState and refuses every other
request. -/
def c2Service : EditRequest → EditResponse :=
  fun req => if req.data == "AAAA" then alwaysImageResponse else refusalResponse

/-- C2 witness: the first-failure theorem applied to the concrete two-page
document whose second page is refused (j = 2). -/
theorem c2_witness :
    (processImage c2Service goodState).1.resultPages.length = 1 ∧
    (processImage c2Service goodState).2 =
      (goodState.sourcePages.take 2).map (mkRequest "image/png"
        goodState.userPrompt) :=
  ⟨(c2_theorem c2Service goodState "image/png" 2 rfl (by decide) (by decide)
      (by decide) (by decide) (by decide)).1,
   (c2_theorem c2Service goodState "image/png" 2 rfl (by decide) (by decide)
      (by decide) (by decide) (by decide)).2.2.1⟩

theorem rasterizePages_ok (doc : PdfDoc) :
    ∀ ns : List Nat,
    (∀ i ∈ ns, exIsOk (doc.renderPage i pdfRenderScale) = true) →
    rasterizePages doc ns = Except.ok (ns.map (fun i =>
      canvasToDataURL "image/png" (exOkD (doc.renderPage i pdfRenderScale)))) := by
  intro ns
  induction ns with
  | nil => intro _; rfl
  | cons i rest ih =>
    intro hall
    have hhead := hall i (List.mem_cons_self i rest)
    cases hr : doc.renderPage i pdfRenderScale with
    | error e => rw [hr] at hhead; simp [exIsOk] at hhead
    | ok c =>
      have hrest := ih (fun n hn => hall n (List.mem_cons_of_mem _ hn))
      simp [rasterizePages, hr, hrest, exOkD]

theorem pageNumbers_length (n : Nat) : (pageNumbers n).length = n := by
  simp [pageNumbers]

theorem pageNumbers_getElem (n i : Nat) (hi : i < n) :
    (pageNumbers n)[i]? = some (i + 1) := by
  simp [pageNumbers, List.getElem?_map, List.getElem?_range, hi]

theorem pageNumbers_mem (n i : Nat) (hi : i < n) : i + 1 ∈ pageNumbers n := by
  simp only [pageNumbers, List.mem_map, List.mem_range]
  exact ⟨i, hi, rfl⟩

/-- C3: uploading a valid PDF file within the size limit whose every page
renders without error produces exactly numPages source pages, in page order
1..N, each the PNG data URL of the page rendered at scale pdfRenderScale
(2.0), sets the shared source MIME type to image/png, and leaves no error
and no result pages. -/
theorem c3_theorem (st : AppState) (f : UploadFile) (doc : PdfDoc)
    (hsize : f.size ≤ maxUploadSize) (htype : f.type = "application/pdf")
    (hdec : f.decoded = Except.ok doc)
    (hrender : ∀ i ∈ pageNumbers doc.numPages,
      exIsOk (doc.renderPage i pdfRenderScale) = true) :
    (handleImageUpload st (some f)).sourcePages.length = doc.numPages ∧
    (handleImageUpload st (some f)).sourceMimeType = some "image/png" ∧
    (handleImageUpload st (some f)).error = none ∧
    (handleImageUpload st (some f)).resultPages = [] ∧
    ∀ i, i < doc.numPages → ∃ c,
      doc.renderPage (i + 1) pdfRenderScale = Except.ok c ∧
      (handleImageUpload st (some f)).sourcePages[i]? =
        some (canvasToDataURL "image/png" c) := by
  have hnotbig : ¬ maxUploadSize < f.size := Nat.not_lt.mpr hsize
  have hrast := rasterizePages_ok doc (pageNumbers doc.numPages) hrender
  have hupload : handleImageUpload st (some f) =
      { st with isUploading := false, error := none, resultPages := [],
                sourcePages := (pageNumbers doc.numPages).map (fun i =>
                  canvasToDataURL "image/png"
                    (exOkD (doc.renderPage i pdfRenderScale))),
                sourceMimeType := some "image/png", fileInputValue := "" } := by
    simp only [handleImageUpload, if_neg hnotbig, htype, if_pos, hdec, hrast]
  refine ⟨?_, ?_, ?_, ?_, ?_⟩
  · rw [hupload]; simp [pageNumbers_length]
  · rw [hupload]
  · rw [hupload]
  · rw [hupload]
  · intro i hi
    have hmem := pageNumbers_mem doc.numPages i hi
    have hok := hrender (i + 1) hmem
    cases hr : doc.renderPage (i + 1) pdfRenderScale with
    | error e => rw [hr] at hok; simp [exIsOk] at hok
    | ok c =>
      refine ⟨c, rfl, ?_⟩
      rw [hupload]
      simp only [List.getElem?_map, pageNumbers_getElem doc.numPages i hi]
      simp [hr, exOkD]

/-- A concrete 2-page PDF document whose pages always render. -/
def okDoc : PdfDoc :=
  { numPages := 2, renderPage := fun i _ => Except.ok ("PAGE" ++ toString i) }

/-- A concrete valid PDF upload within the size limit. -/
def okPdfFile : UploadFile :=
  { size := 1000, type := "application/pdf", dataUrl := "",
    decoded := Except.ok okDoc }

/-- C3 witness: the PDF-upload theorem applied to the concrete 2-page PDF. -/
theorem c3_witness :
    (handleImageUpload initState (some okPdfFile)).sourcePages.length = 2 ∧
    (handleImageUpload initState (some okPdfFile)).sourceMimeType =
      some "image/png" :=
  ⟨(c3_theorem initState okPdfFile okDoc (by decide) rfl rfl
      (fun i _ => rfl)).1,
   (c3_theorem initState okPdfFile okDoc (by decide) rfl rfl
      (fun i _ => rfl)).2.1⟩

/-- C8 (amended): when reading an uploaded PDF throws, either at decode or
while rasterizing some page, the whole operation aborts with the fixed
human-readable message built from the underlying error text (the page count
is not added to the message), and all partially rasterized pages are
discarded: the source sequence is left empty and the results stay empty. -/
theorem c8_theorem (st : AppState) (f : UploadFile) (m : String)
    (hsize : f.size ≤ maxUploadSize) (htype : f.type = "application/pdf")
    (hfail : f.decoded = Except.error m ∨
      ∃ doc, f.decoded = Except.ok doc ∧
        rasterizePages doc (pageNumbers doc.numPages) = Except.error m) :
    handleImageUpload st (some f) =
      { st with sourcePages := [], resultPages := [],
                error := some (pdfErrorMsg m), isUploading := false,
                fileInputValue := "" } := by
  have hnotbig : ¬ maxUploadSize < f.size := Nat.not_lt.mpr hsize
  rcases hfail with hdec | ⟨doc, hdec, hrast⟩
  · simp only [handleImageUpload, if_neg hnotbig, htype, if_pos, hdec]
  · simp only [handleImageUpload, if_neg hnotbig, htype, if_pos, hdec, hrast]

/-- A 3-page document whose second page fails to render. -/
def c8Doc : PdfDoc :=
  { numPages := 3,
    renderPage := fun i _ =>
      if i == 2 then Except.error "canvas failure"
      else Except.ok ("PAGE" ++ toString i) }

/-- The upload of the document whose second page fails. -/
def c8File : UploadFile :=
  { size := 1000, type := "application/pdf", dataUrl := "",
    decoded := Except.ok c8Doc }

/-- C8 counterexample: rendering page 2 of a 3-page PDF throws; the
surfaced message is exactly the fixed prefix plus the underlying error text
and does not contain the page count (3), even though the count is known at
that point; the source sequence is left empty. -/
theorem c8_counterexample :
    (handleImageUpload initState (some c8File)).sourcePages = [] ∧
    (handleImageUpload initState (some c8File)).error =
      some "读取 PDF 文件时发生错误: canvas failure" ∧
    strHasSub (toString c8Doc.numPages)
      (((handleImageUpload initState (some c8File)).error).getD "") = false := by
  decide

/-- A PDF upload that fails to decode. -/
def badPdfFile : UploadFile :=
  { size := 1000, type := "application/pdf", dataUrl := "",
    decoded := Except.error "broken xref table" }

/-- C8 witness: the amended theorem applied to the concrete PDF whose
decoding throws. -/
theorem c8_witness :
    handleImageUpload initState (some badPdfFile) =
      { initState with sourcePages := [], resultPages := [],
                       error := some (pdfErrorMsg "broken xref table"),
                       isUploading := false, fileInputValue := "" } :=
  c8_theorem initState badPdfFile "broken xref table" (by decide) rfl
    (Or.inl rfl)

/-- The concatenation of the texts of all text parts, in order (parts with
no text contribute nothing). -/
def concatTexts : List ResponsePart → String
  | [] => ""
  | q :: qs => (q.text.getD "") ++ concatTexts qs

theorem scanParts_no_image :
    ∀ (ps : List ResponsePart) (acc : String),
    (∀ q ∈ ps, q.inlineData = none) →
    scanParts ps acc = (none, acc ++ concatTexts ps) := by
  intro ps
  induction ps with
  | nil => intro acc _; simp [scanParts, concatTexts]
  | cons q qs ih =>
    intro acc hnone
    have hq := hnone q (List.mem_cons_self q qs)
    have hrest := fun x hx => hnone x (List.mem_cons_of_mem _ hx)
    cases ht : q.text with
    | some t =>
      simp only [scanParts, hq, ht]
      rw [ih (acc ++ t) hrest]
      simp [concatTexts, ht, String.append_assoc]
    | none =>
      simp only [scanParts, hq, ht]
      rw [ih acc hrest]
      simp [concatTexts, ht]

theorem scanParts_first_image :
    ∀ (pre : List ResponsePart) (q : ResponsePart) (post : List ResponsePart)
      (d : InlineData) (acc : String),
    (∀ x ∈ pre, x.inlineData = none) → q.inlineData = some d →
    (scanParts (pre ++ q :: post) acc).1 = some (mkImageUrl d) := by
  intro pre
  induction pre with
  | nil =>
    intro q post d acc _ hq
    simp [scanParts, hq]
  | cons x xs ih =>
    intro q post d acc hpre hq
    have hx := hpre x (List.mem_cons_self x xs)
    have hxs := fun y hy => hpre y (List.mem_cons_of_mem _ hy)
    cases ht : x.text with
    | some t =>
      simp only [List.cons_append, scanParts, hx, ht]
      exact ih q post d (acc ++ t) hxs hq
    | none =>
      simp only [List.cons_append, scanParts, hx, ht]
      exact ih q post d acc hxs hq

/-- C6: a response is interpreted as an ordered part sequence; the first
part carrying inline image bytes is taken as the page result (whatever
follows it is ignored), and when no part carries image bytes the call is
treated as a failure whose diagnostic concatenates the text of all text
parts and is surfaced with the 1-based page number embedded, while the page
contributes no result. -/
theorem c6_theorem (r : EditResponse) (parts : List ResponsePart)
    (hparts : responseParts r = some parts) :
    (∀ (pre : List ResponsePart) (q : ResponsePart)
       (post : List ResponsePart) (d : InlineData),
      parts = pre ++ q :: post →
      (∀ x ∈ pre, x.inlineData = none) → q.inlineData = some d →
      (handleResponse r).1 = some (mkImageUrl d)) ∧
    ((∀ x ∈ parts, x.inlineData = none) →
      handleResponse r = (none, concatTexts parts) ∧
      ∀ (service : EditRequest → EditResponse) (mime prompt page : String)
        (rest : List String) (idx : Nat),
        service (mkRequest mime prompt page) = r →
        (runEditAux service mime prompt idx (page :: rest)).error =
          some ("第 " ++ toString (idx + 1) ++ " 页未能生成图像。AI回复: " ++
            (if concatTexts parts = "" then "无" else concatTexts parts)) ∧
        (runEditAux service mime prompt idx (page :: rest)).results = []) := by
  have hh : handleResponse r = scanParts parts "" := by
    simp [handleResponse, hparts]
  constructor
  · intro pre q post d hsplit hpre hq
    rw [hh, hsplit]
    exact scanParts_first_image pre q post d "" hpre hq
  · intro hnone
    have h2 : handleResponse r = (none, concatTexts parts) := by
      rw [hh, scanParts_no_image parts "" hnone]
      simp
    refine ⟨h2, ?_⟩
    intro service mime prompt page rest idx hsvc
    have hcall : handleResponse (service (mkRequest mime prompt page)) =
        (none, concatTexts parts) := by rw [hsvc]; exact h2
    rw [runEditAux_cons_fail service mime prompt idx page rest _ hcall]
    exact ⟨by simp [pageErrorMsg], rfl⟩

/-- C6 witness: the parts-interpretation theorem applied to the concrete
refusal response, surfaced for the second page of the two-page run. -/
theorem c6_witness :
    handleResponse refusalResponse = (none, concatTexts [refusalPart]) ∧
    (runEditAux c2Service "image/png" "clean" 1
        ["data:image/png;base64,BBBB"]).error =
      some ("第 " ++ toString 2 ++ " 页未能生成图像。AI回复: " ++
        (if concatTexts [refusalPart] = "" then "无"
         else concatTexts [refusalPart])) :=
  ⟨((c6_theorem refusalResponse [refusalPart] rfl).2 (by decide)).1,
   (((c6_theorem refusalResponse [refusalPart] rfl).2 (by decide)).2 c2Service
      "image/png" "clean" "data:image/png;base64,BBBB" [] 1 (by decide)).1⟩

/-- A part carrying inline image bytes with no MIME type, plus a text
field. -/
def partNoMime (d : String) (t : Option String) : ResponsePart :=
  { inlineData := some { data := d, mimeType := none }, text := t }

/-- C10: when the first inline-image part of a response carries image bytes
but no MIME type, the stored result page is a data URL whose MIME type
defaults to image/png. -/
theorem c10_theorem (service : EditRequest → EditResponse)
    (mime prompt page : String) (pre post : List ResponsePart)
    (t : Option String) (d : String)
    (hparts : responseParts (service (mkRequest mime prompt page)) =
      some (pre ++ partNoMime d t :: post))
    (hpre : ∀ x ∈ pre, x.inlineData = none) :
    (handleResponse (service (mkRequest mime prompt page))).1 =
      some ("data:image/png;base64," ++ d) ∧
    ∀ (idx : Nat) (rest : List String),
      ((runEditAux service mime prompt idx (page :: rest)).results)[0]? =
        some ("data:image/png;base64," ++ d) := by
  have hurl : mkImageUrl { data := d, mimeType := none } =
      "data:image/png;base64," ++ d := rfl
  have hfst : (handleResponse (service (mkRequest mime prompt page))).1 =
      some ("data:image/png;base64," ++ d) := by
    have hh : handleResponse (service (mkRequest mime prompt page)) =
        scanParts (pre ++ partNoMime d t :: post) "" := by
      simp [handleResponse, hparts]
    rw [hh, scanParts_first_image pre _ post _ "" hpre rfl, hurl]
  refine ⟨hfst, ?_⟩
  intro idx rest
  have hpair : handleResponse (service (mkRequest mime prompt page)) =
      (some ("data:image/png;base64," ++ d),
       (handleResponse (service (mkRequest mime prompt page))).2) := by
    rw [← hfst]
  rw [runEditAux_cons_ok service mime prompt idx page rest _ _ hpair]
  simp

/-- A response part with image bytes and no MIME type. -/
def noMimePart : ResponsePart :=
  { inlineData := some { data := "RAWBYTES", mimeType := none }, text := none }

/-- A response whose only part carries image bytes and no MIME type. -/
def noMimeResponse : EditResponse := mkResponse [noMimePart]

/-- C10 witness: the default-MIME theorem applied to the concrete response
carrying image bytes with no MIME type. -/
theorem c10_witness :
    (handleResponse ((fun _ => noMimeResponse) (mkRequest "image/png" "clean"
      "data:image/png;base64,AAAA"))).1 =
      some ("data:image/png;base64," ++ "RAWBYTES") ∧
    ((runEditAux (fun _ => noMimeResponse) "image/png" "clean" 0
        ["data:image/png;base64,AAAA"]).results)[0]? =
      some ("data:image/png;base64," ++ "RAWBYTES") :=
  ⟨(c10_theorem (fun _ => noMimeResponse) "image/png" "clean"
      "data:image/png;base64,AAAA" [] [] none "RAWBYTES" rfl (by simp)).1,
   (c10_theorem (fun _ => noMimeResponse) "image/png" "clean"
      "data:image/png;base64,AAAA" [] [] none "RAWBYTES" rfl (by simp)).2 0 []⟩

theorem placePage_spec (dims : String → ImgDims) (pdata : String)
    (hw : 0 < (dims pdata).width) (hh : 0 < (dims pdata).height) :
    (placePage dims pdata).data = pdata ∧
    (placePage dims pdata).w * (dims pdata).height =
      (placePage dims pdata).h * (dims pdata).width ∧
    (a4Width / a4Height < (dims pdata).width / (dims pdata).height →
      (placePage dims pdata).w = a4Width) ∧
    ((dims pdata).width / (dims pdata).height ≤ a4Width / a4Height →
      (placePage dims pdata).h = a4Height) ∧
    (placePage dims pdata).x * 2 + (placePage dims pdata).w = a4Width ∧
    (placePage dims pdata).y * 2 + (placePage dims pdata).h = a4Height := by
  have hw0 : (dims pdata).width ≠ 0 := ne_of_gt hw
  have hh0 : (dims pdata).height ≠ 0 := ne_of_gt hh
  by_cases hc : a4Width / a4Height < (dims pdata).width / (dims pdata).height
  · refine ⟨rfl, ?_, ?_, ?_, ?_, ?_⟩
    · simp only [placePage, if_pos hc]
      rw [div_div_eq_mul_div]
      field_simp
    · intro _; simp only [placePage, if_pos hc]
    · intro hle; exact absurd hc (not_lt.mpr hle)
    · simp only [placePage, if_pos hc]; ring
    · simp only [placePage, if_pos hc]; ring
  · refine ⟨rfl, ?_, ?_, ?_, ?_, ?_⟩
    · simp only [placePage, if_neg hc]
      field_simp
    · intro hlt; exact absurd hlt hc
    · intro _; simp only [placePage, if_neg hc]
    · simp only [placePage, if_neg hc]; ring
    · simp only [placePage, if_neg hc]; ring

/-- C4: a non-empty result downloads either as the fixed-name PNG (single
page) or as an A4 portrait PDF with page count equal to the result length,
pages in result order, each image scaled with its aspect ratio preserved
(full page width when relatively wider than the page, full page height when
relatively taller) and centered on both axes. -/
theorem c4_theorem (dims : String → ImgDims) (st : AppState)
    (hpos : ∀ p ∈ st.resultPages,
      0 < (dims p).width ∧ 0 < (dims p).height) :
    (st.resultPages.length = 1 →
      downloadResult dims st =
        some (DownloadOut.pngFile "cleaned_worksheet.png"
          (st.resultPages.headD ""))) ∧
    (1 < st.resultPages.length →
      downloadResult dims st =
        some (DownloadOut.pdfFile "cleaned_document.pdf"
          (st.resultPages.map (placePage dims))) ∧
      (st.resultPages.map (placePage dims)).length = st.resultPages.length ∧
      ∀ i, i < st.resultPages.length → ∃ pg : PlacedImage,
        (st.resultPages.map (placePage dims))[i]? = some pg ∧
        st.resultPages[i]? = some pg.data ∧
        pg.w * (dims pg.data).height = pg.h * (dims pg.data).width ∧
        (a4Width / a4Height < (dims pg.data).width / (dims pg.data).height →
          pg.w = a4Width) ∧
        ((dims pg.data).width / (dims pg.data).height ≤ a4Width / a4Height →
          pg.h = a4Height) ∧
        pg.x * 2 + pg.w = a4Width ∧ pg.y * 2 + pg.h = a4Height) := by
  constructor
  · intro h1
    cases hrp : st.resultPages with
    | nil => rw [hrp] at h1; simp at h1
    | cons p rest =>
      cases rest with
      | nil => simp [downloadResult, hrp]
      | cons q rest2 => rw [hrp] at h1; simp at h1
  · intro h2
    have hdl : downloadResult dims st =
        some (DownloadOut.pdfFile "cleaned_document.pdf"
          (st.resultPages.map (placePage dims))) := by
      cases hrp : st.resultPages with
      | nil => rw [hrp] at h2; simp at h2
      | cons p rest =>
        cases rest with
        | nil => rw [hrp] at h2; simp at h2
        | cons q rest2 => simp [downloadResult, hrp]
    refine ⟨hdl, by simp, ?_⟩
    intro i hi
    have hget : ∃ p, st.resultPages[i]? = some p := by
      rw [List.getElem?_eq_getElem hi]
      exact ⟨st.resultPages[i], rfl⟩
    obtain ⟨p, hp⟩ := hget
    have hmem : p ∈ st.resultPages := List.getElem?_mem hp
    obtain ⟨hw, hh⟩ := hpos p hmem
    obtain ⟨hdata, haspect, hwide, htall, hcx, hcy⟩ :=
      placePage_spec dims p hw hh
    refine ⟨placePage dims p, ?_, ?_, ?_, ?_, ?_, ?_, ?_⟩
    · rw [List.getElem?_map, hp]; rfl
    · rw [hp, hdata]
    · rw [hdata]; exact haspect
    · rw [hdata]; exact hwide
    · rw [hdata]; exact htall
    · exact hcx
    · exact hcy

/-- Image dimensions 100x50: relatively wider than an A4 portrait page. -/
def wideDims : String → ImgDims := fun _ => { width := 100, height := 50 }

/-- A state holding a concrete two-page result. -/
def twoResultState : AppState :=
  { initState with resultPages := ["RESULT1", "RESULT2"] }

/-- C4 witness: the download theorem applied to the concrete two-page
result with wide images. -/
theorem c4_witness :
    downloadResult wideDims twoResultState =
      some (DownloadOut.pdfFile "cleaned_document.pdf"
        (twoResultState.resultPages.map (placePage wideDims))) ∧
    (twoResultState.resultPages.map (placePage wideDims)).length =
      twoResultState.resultPages.length :=
  ⟨((c4_theorem wideDims twoResultState (by decide)).2 (by decide)).1,
   ((c4_theorem wideDims twoResultState (by decide)).2 (by decide)).2.1⟩

/-- The completion flag after an upload: an oversize upload changes nothing
but the error, so a prior completed run stays completed; any other upload
discards the results. -/
def uploadFlag (fo : Option UploadFile) (b : Bool) : Bool :=
  match fo with
  | none => b
  | some f => if maxUploadSize < f.size then b else false

/-- The completion flag after an edit run: unchanged when the run refuses
to start, otherwise whether the run finished without error. -/
def editFlag (service : EditRequest → EditResponse) (s : AppState)
    (b : Bool) : Bool :=
  if s.sourcePages.isEmpty || mimeFalsy s.sourceMimeType then b
  else ((runEditAux service (s.sourceMimeType.getD "") s.userPrompt 0
    s.sourcePages).error).isNone

/-- States reachable through the user-facing operations, starting at the
initial state: editing the prompt, switching the view mode, clearing,
uploading (including its busy intermediate state after the resets), and
running the edit (including every intermediate progressive publication of
the first k results).  The Bool tracks whether an edit run over the current
source has completed all pages successfully.  Downloading never changes the
component state and needs no constructor. -/
inductive Reach : AppState → Bool → Prop where
  | init : Reach initState false
  | prompt (s : AppState) (b : Bool) (p : String) :
      Reach s b → Reach { s with userPrompt := p } b
  | view (s : AppState) (b : Bool) (v : ViewMode) :
      Reach s b → Reach { s with viewMode := v } b
  | clear (s : AppState) (b : Bool) :
      Reach s b → Reach (clearImage s) false
  | uploadBusy (s : AppState) (b : Bool) :
      Reach s b →
      Reach { s with isUploading := true, error := none,
                     resultPages := [], sourcePages := [] } false
  | upload (s : AppState) (b : Bool) (fo : Option UploadFile) :
      Reach s b → Reach (handleImageUpload s fo) (uploadFlag fo b)
  | edit (s : AppState) (b : Bool) (service : EditRequest → EditResponse) :
      Reach s b → Reach (processImage service s).1 (editFlag service s b)
  | editStep (s : AppState) (b : Bool)
      (service : EditRequest → EditResponse) (k : Nat) :
      Reach s b →
      (s.sourcePages.isEmpty || mimeFalsy s.sourceMimeType) = false →
      k ≤ (runEditAux service (s.sourceMimeType.getD "") s.userPrompt 0
        s.sourcePages).results.length →
      Reach { s with isProcessing := true, error := none,
                     resultPages := (runEditAux service
                       (s.sourceMimeType.getD "") s.userPrompt 0
                       s.sourcePages).results.take k }
        (k == s.sourcePages.length)

/-- C7 (amended): at every reachable state the result sequence is never
longer than the source sequence, and at every reachable state with a
non-empty source the two lengths are equal exactly when an edit run over
the current source has completed all pages successfully. -/
theorem c7_theorem (s : AppState) (b : Bool) (h : Reach s b) :
    s.resultPages.length ≤ s.sourcePages.length ∧
    (s.sourcePages ≠ [] →
      (s.resultPages.length = s.sourcePages.length ↔ b = true)) := by
  induction h with
  | init => simp [initState]
  | prompt s b p _ ih => simpa using ih
  | view s b v _ ih => simpa using ih
  | clear s b _ _ => simp [clearImage]
  | uploadBusy s b _ _ => simp
  | upload s b fo _ ih =>
    cases fo with
    | none => simpa [handleImageUpload, uploadFlag] using ih
    | some f =>
      by_cases hbig : maxUploadSize < f.size
      · have h1 : handleImageUpload s (some f) =
            { s with error := some sizeLimitMsg } := by
          simp [handleImageUpload, hbig]
        have h2 : uploadFlag (some f) b = b := by simp [uploadFlag, hbig]
        rw [h1, h2]
        simpa using ih
      · have h2 : uploadFlag (some f) b = false := by simp [uploadFlag, hbig]
        rw [h2]
        by_cases htype : f.type = "application/pdf"
        · cases hdec : f.decoded with
          | error m =>
            have h1 : handleImageUpload s (some f) =
                { s with isUploading := false, error := some (pdfErrorMsg m),
                         resultPages := [], sourcePages := [],
                         fileInputValue := "" } := by
              simp [handleImageUpload, if_neg hbig, htype, hdec]
            rw [h1]
            simp
          | ok doc =>
            cases hrast : rasterizePages doc (pageNumbers doc.numPages) with
            | error m =>
              have h1 : handleImageUpload s (some f) =
                  { s with isUploading := false, error := some (pdfErrorMsg m),
                           resultPages := [], sourcePages := [],
                           fileInputValue := "" } := by
                simp [handleImageUpload, if_neg hbig, htype, hdec, hrast]
              rw [h1]
              simp
            | ok pages =>
              have h1 : handleImageUpload s (some f) =
                  { s with isUploading := false, error := none,
                           resultPages := [], sourcePages := pages,
                           sourceMimeType := some "image/png",
                           fileInputValue := "" } := by
                simp [handleImageUpload, if_neg hbig, htype, hdec, hrast]
              rw [h1]
              refine ⟨by simp, fun hne => ?_⟩
              simp only at hne
              simp [eq_comm, List.length_eq_zero, hne]
        · have h1 : handleImageUpload s (some f) =
              { s with isUploading := false, error := none,
                       resultPages := [], sourcePages := [f.dataUrl],
                       sourceMimeType := some f.type,
                       fileInputValue := "" } := by
            simp [handleImageUpload, if_neg hbig, htype]
          rw [h1]
          refine ⟨by simp, fun _ => by simp⟩
  | edit s b service _ ih =>
    cases hguard : (s.sourcePages.isEmpty || mimeFalsy s.sourceMimeType) with
    | true =>
      have h1 : (processImage service s).1 = s := by
        simp [processImage, hguard]
      have h2 : editFlag service s b = b := by simp [editFlag, hguard]
      rw [h1, h2]
      exact ih
    | false =>
      have h1 : (processImage service s).1 =
          { s with isProcessing := false,
                   error := (runEditAux service (s.sourceMimeType.getD "")
                     s.userPrompt 0 s.sourcePages).error,
                   resultPages := (runEditAux service (s.sourceMimeType.getD "")
                     s.userPrompt 0 s.sourcePages).results } := by
        simp only [processImage, hguard, Bool.false_eq_true, if_false]
      have h2 : editFlag service s b =
          ((runEditAux service (s.sourceMimeType.getD "") s.userPrompt 0
            s.sourcePages).error).isNone := by
        simp [editFlag, hguard]
      rw [h1, h2]
      refine ⟨?_, fun _ => ?_⟩
      · simpa using runEditAux_length_le service (s.sourceMimeType.getD "")
          s.userPrompt s.sourcePages 0
      · have hiff := runEditAux_error_iff service (s.sourceMimeType.getD "")
          s.userPrompt s.sourcePages 0
        simp only [Option.isNone_iff_eq_none]
        exact hiff.symm
  | editStep s b service k _ hguard hk ih =>
    have hle := runEditAux_length_le service (s.sourceMimeType.getD "")
      s.userPrompt s.sourcePages 0
    have hlen : ((runEditAux service (s.sourceMimeType.getD "") s.userPrompt 0
        s.sourcePages).results.take k).length = k := by
      rw [List.length_take]
      omega
    refine ⟨?_, fun _ => ?_⟩
    · simp only [hlen]
      omega
    · simp only [hlen, beq_iff_eq]

/-- C7 counterexample: the state reached by clearing (source and result
both empty) has equal result and source lengths even though no edit run has
completed, refuting the unconditional "equality exactly when the run has
completed". -/
theorem c7_counterexample :
    Reach (clearImage initState) false ∧
    (clearImage initState).resultPages.length =
      (clearImage initState).sourcePages.length :=
  ⟨Reach.clear initState false Reach.init, rfl⟩

/-- C7 witness: the invariant theorem applied to the initial state. -/
theorem c7_witness :
    initState.resultPages.length ≤ initState.sourcePages.length :=
  (c7_theorem initState false Reach.init).1

end SmartEraser
